import Mathlib

/-!
# TCPDebug: connection lifecycle of the debug server

A shallow embedding of `Source/ServerThread.h` (`ClientConnection`, `ServerThread`) and of
the server control functions of `Source/MainComponent.h` (`sendMessage`, `startServer`,
`stopServer`).

Each function runs against an environment: the JUCE primitives it calls (socket, thread
flags, sleep) are fields of an environment record acting on a world state `W`, so that any
sequence of answers can be supplied.  Every function returns, next to its result, the list
of the calls it made, in program order.  The two thread loops are unbounded in the source;
here they take a bound on the number of outer iterations and report whether the loop ended
within it.
-/

namespace TCPDebug

/-- One `char` of the receive buffer, a value below 256. -/
abbrev Byte := Nat

/-! ## ClientConnection (ServerThread.h, lines 20 to 119) -/

/-- The primitives `ClientConnection` calls: `Thread::threadShouldExit`, the atomic
`exitFlag`, the `StreamingSocket` of the client, `Thread::sleep`, `String::fromUTF8`,
`String::toRawUTF8` and the three callbacks of `ServerThreadListener`.  `read maxLen`
is the non-blocking `read (buffer, maxLen, false)`: it answers the byte count and the
content of `buffer` after the call. -/
structure ConnEnv (W : Type) where
  threadShouldExit : W → Bool × W
  exitFlag : W → Bool × W
  isConnected : W → Bool × W
  read : Nat → W → (Int × List Byte) × W
  write : List Byte → Nat → W → Int × W
  sleep : Nat → W → W
  fromUTF8 : List Byte → String
  toRawUTF8 : String → List Byte
  getNumBytesAsUTF8 : String → Nat
  clientConnected : W → W
  messageReceived : String → W → W
  clientDisconnected : W → W

/-- The calls of `ClientConnection::run`, in the order they are made. -/
inductive ConnAction where
  | clientConnected
  | messageReceived (text : String)
  | clientDisconnected
  | loopCheck (goOn : Bool)
  | pollCheck (leave : Bool)
  | read (bytesRead : Int) (buffer : List Byte)
  | sleep (ms : Nat)
  deriving DecidableEq, Repr

/-- The test `threadShouldExit() || exitFlag`, evaluated left to right. -/
def shouldExit {W : Type} (env : ConnEnv W) (w : W) : Bool × W :=
  let a := env.threadShouldExit w
  if a.1 then (true, a.2) else env.exitFlag a.2

/-- The condition of the outer `while`:
`!threadShouldExit() && !exitFlag && clientSocket->isConnected()`. -/
def loopCondition {W : Type} (env : ConnEnv W) (w : W) : Bool × W :=
  let a := env.threadShouldExit w
  if a.1 then (false, a.2)
  else
    let b := env.exitFlag a.2
    if b.1 then (false, b.2) else env.isConnected b.2

/-- What the inner `for` loop hands back: the calls made, the world, and whether it was
left through `goto connectionClosed`. -/
structure PollResult (W : Type) where
  trace : List ConnAction
  world : W
  closed : Bool

/-- The inner loop `for (poll = 0; poll < 10; ++poll)` with `k` iterations left. -/
def pollLoop {W : Type} (env : ConnEnv W) : Nat → W → PollResult W
  | 0, w => ⟨[], w, false⟩
  | k + 1, w =>
    let c := shouldExit env w
    if c.1 then ⟨[.pollCheck true], c.2, false⟩
    else
      let r := env.read 4095 c.2
      let bytesRead := r.1.1
      let buffer := r.1.2
      if bytesRead > 0 then
        let message := env.fromUTF8 (buffer.take bytesRead.toNat)
        ⟨[.pollCheck false, .read bytesRead buffer, .messageReceived message],
          env.messageReceived message r.2, false⟩
      else if bytesRead < 0 then
        ⟨[.pollCheck false, .read bytesRead buffer], r.2, true⟩
      else
        let rest := pollLoop env k (env.sleep 10 r.2)
        ⟨.pollCheck false :: .read bytesRead buffer :: .sleep 10 :: rest.trace,
          rest.world, rest.closed⟩

/-- A run of a thread loop: the calls made, whether the loop ended within the bound, and
the world it left. -/
structure RunResult (α W : Type) where
  trace : List α
  terminated : Bool
  world : W

/-- The outer `while` loop of `ClientConnection::run`, up to the label
`connectionClosed`, for at most `fuel` iterations. -/
def readLoop {W : Type} (env : ConnEnv W) : Nat → W → RunResult ConnAction W
  | 0, w => ⟨[], false, w⟩
  | fuel + 1, w =>
    let c := loopCondition env w
    if c.1 then
      let p := pollLoop env 10 c.2
      if p.closed then ⟨.loopCheck true :: p.trace, true, p.world⟩
      else
        let rest := readLoop env fuel (env.sleep 50 p.world)
        ⟨.loopCheck true :: (p.trace ++ .sleep 50 :: rest.trace), rest.terminated, rest.world⟩
    else ⟨[.loopCheck false], true, c.2⟩

/-- The body of `ClientConnection::run`: `clientConnected`, the read loop, and at the label
`connectionClosed` the call of `clientDisconnected`. -/
def ClientConnection.run {W : Type} (env : ConnEnv W) (fuel : Nat) (w : W) :
    RunResult ConnAction W :=
  let r := readLoop env fuel (env.clientConnected w)
  if r.terminated then
    ⟨.clientConnected :: (r.trace ++ [.clientDisconnected]), true, env.clientDisconnected r.world⟩
  else ⟨.clientConnected :: r.trace, false, r.world⟩

/-- The calls of `ClientConnection::sendMessage`. -/
inductive SendAction where
  | isConnected (answer : Bool)
  | write (bytes : List Byte) (numBytes : Nat) (result : Int)
  deriving DecidableEq, Repr

/-- The body of `ClientConnection::sendMessage`: the value returned, the calls made and
the world left. -/
def ClientConnection.sendMessage {W : Type} (env : ConnEnv W) (message : String) (w : W) :
    Bool × List SendAction × W :=
  let c := env.isConnected w
  if c.1 then
    let r := env.write (env.toRawUTF8 message) (env.getNumBytesAsUTF8 message) c.2
    (decide (r.1 > 0), [.isConnected true, .write (env.toRawUTF8 message)
      (env.getNumBytesAsUTF8 message) r.1], r.2)
  else (false, [.isConnected false], c.2)

/-! ### A scripted environment -/

/-- A world for concrete runs: the answers still to be given by `exitFlag`, `isConnected`
and `read`.  A script that has run out answers "exit requested", "not connected" and
"read error". -/
structure Script where
  exits : List Bool
  connected : List Bool
  reads : List (Int × List Byte)
  deriving DecidableEq, Repr

/-- The environment that plays a `Script`; text is decoded byte by byte. -/
def scripted : ConnEnv Script where
  threadShouldExit := fun w => (false, w)
  exitFlag := fun w => (w.exits.headD true, { w with exits := w.exits.tail })
  isConnected := fun w => (w.connected.headD false, { w with connected := w.connected.tail })
  read := fun _ w => (w.reads.headD (-1, []), { w with reads := w.reads.tail })
  write := fun _ n w => (n, w)
  sleep := fun _ w => w
  fromUTF8 := fun bs => String.mk (bs.map Char.ofNat)
  toRawUTF8 := fun s => s.data.map Char.toNat
  getNumBytesAsUTF8 := fun s => s.length
  clientConnected := fun w => w
  messageReceived := fun _ w => w
  clientDisconnected := fun w => w

/-! ### Reading a trace -/

/-- The calls that reach the `ServerThreadListener`. -/
def ConnAction.isListenerEvent : ConnAction → Bool
  | .clientConnected => true
  | .messageReceived _ => true
  | .clientDisconnected => true
  | _ => false

/-- Whether the call is `messageReceived`. -/
def ConnAction.isMessage : ConnAction → Bool
  | .messageReceived _ => true
  | _ => false

/-- Whether the call is a `read` that answered a negative count. -/
def ConnAction.isNegativeRead : ConnAction → Bool
  | .read n _ => decide (n < 0)
  | _ => false

/-- The Listener events of a trace, in order. -/
def listenerEvents (tr : List ConnAction) : List ConnAction :=
  tr.filter ConnAction.isListenerEvent

/-- The texts handed to `messageReceived`, in order. -/
def deliveredTexts (tr : List ConnAction) : List String :=
  tr.filterMap fun a => match a with
    | .messageReceived t => some t
    | _ => none

/-- The reads of a trace that answered a positive count, in order, each with the buffer
it filled. -/
def positiveReads (tr : List ConnAction) : List (Int × List Byte) :=
  tr.filterMap fun a => match a with
    | .read n b => if n > 0 then some (n, b) else none
    | _ => none

/-- A client that sends `PING` and a newline, is silent at the next poll, and whose third
read fails. -/
def pingIdleFail : Script :=
  ⟨[false, false, false, false, false], [true, true],
    [(5, [80, 73, 78, 71, 10]), (0, []), (-1, [])]⟩

/-- A client that sends `PING` and a newline; the exit flag is found set at the next
evaluation of the loop condition. -/
def pingThenExit : Script :=
  ⟨[false, false, true], [true], [(5, [80, 73, 78, 71, 10])]⟩

/-- How a message text is obtained from a positive read: `String::fromUTF8 (buffer, bytesRead)`. -/
def decodeRead {W : Type} (env : ConnEnv W) (r : Int × List Byte) : String :=
  env.fromUTF8 (r.2.take r.1.toNat)

/-! ## ServerThread (ServerThread.h, lines 121 to 196) -/

/-- The socket handed back by `waitForNextConnection`. -/
abbrev Handle := Nat

/-- The primitives `ServerThread::run` calls: `Thread::threadShouldExit`, the atomic
`exitFlag`, `waitForNextConnection` on the listening socket (`none` is the null pointer),
the constructor of `ClientConnection`, and `Thread::sleep`. -/
structure AcceptEnv (W : Type) where
  threadShouldExit : W → Bool × W
  exitFlag : W → Bool × W
  waitForNextConnection : W → Option Handle × W
  newClientConnection : Handle → W → W
  sleep : Nat → W → W

/-- The calls of `ServerThread::run`.  `exitCheck` is an evaluation of
`threadShouldExit() || exitFlag` (in the loop condition, its negation): `observed` tells
whether one of the two was found set. -/
inductive AcceptAction where
  | exitCheck (observed : Bool)
  | waitForNextConnection (client : Option Handle)
  | newClientConnection (client : Handle)
  | sleep (ms : Nat)
  deriving DecidableEq, Repr

/-- The test `threadShouldExit() || exitFlag` of the server thread, left to right. -/
def acceptorShouldExit {W : Type} (env : AcceptEnv W) (w : W) : Bool × W :=
  let a := env.threadShouldExit w
  if a.1 then (true, a.2) else env.exitFlag a.2

/-- What the inner `for` loop of the server thread hands back: the calls made, the world,
the variable `hasNewConnection`, and whether the function returned from inside the loop. -/
structure AcceptPoll (W : Type) where
  trace : List AcceptAction
  world : W
  hasNewConnection : Bool
  returned : Bool

/-- The inner loop `for (i = 0; i < 10; ++i)` with `k` iterations left. -/
def acceptPoll {W : Type} (env : AcceptEnv W) : Nat → W → AcceptPoll W
  | 0, w => ⟨[], w, false, false⟩
  | k + 1, w =>
    let c := acceptorShouldExit env w
    if c.1 then ⟨[.exitCheck true], c.2, false, true⟩
    else
      let r := env.waitForNextConnection c.2
      match r.1 with
      | some client =>
        ⟨[.exitCheck false, .waitForNextConnection (some client), .newClientConnection client],
          env.newClientConnection client r.2, true, false⟩
      | none =>
        let rest := acceptPoll env k (env.sleep 5 r.2)
        ⟨.exitCheck false :: .waitForNextConnection none :: .sleep 5 :: rest.trace,
          rest.world, rest.hasNewConnection, rest.returned⟩

/-- The body of `ServerThread::run` for at most `fuel` iterations of the outer `while`. -/
def ServerThread.run {W : Type} (env : AcceptEnv W) : Nat → W → RunResult AcceptAction W
  | 0, w => ⟨[], false, w⟩
  | fuel + 1, w =>
    let c := acceptorShouldExit env w
    if c.1 then ⟨[.exitCheck true], true, c.2⟩
    else
      let p := acceptPoll env 10 c.2
      if p.returned then ⟨.exitCheck false :: p.trace, true, p.world⟩
      else if p.hasNewConnection then
        let rest := ServerThread.run env fuel p.world
        ⟨.exitCheck false :: (p.trace ++ rest.trace), rest.terminated, rest.world⟩
      else
        let d := acceptorShouldExit env p.world
        if d.1 then ⟨.exitCheck false :: (p.trace ++ [.exitCheck true]), true, d.2⟩
        else
          let rest := ServerThread.run env fuel (env.sleep 20 d.2)
          ⟨.exitCheck false :: (p.trace ++ .exitCheck false :: .sleep 20 :: rest.trace),
            rest.terminated, rest.world⟩

/-- A world for concrete runs of the server thread: the answers still to be given by
`exitFlag` and by `waitForNextConnection`.  A script that has run out answers "exit
requested" and "nothing pending". -/
structure AcceptScript where
  exits : List Bool
  pending : List (Option Handle)
  deriving DecidableEq, Repr

/-- The environment that plays an `AcceptScript`. -/
def acceptScripted : AcceptEnv AcceptScript where
  threadShouldExit := fun w => (false, w)
  exitFlag := fun w => (w.exits.headD true, { w with exits := w.exits.tail })
  waitForNextConnection := fun w => (w.pending.headD none, { w with pending := w.pending.tail })
  newClientConnection := fun _ w => w
  sleep := fun _ w => w

/-- One failed accept, then client 7 is accepted, then the exit flag is found set in the
middle of the next poll cycle. -/
def acceptOneThenStop : AcceptScript :=
  ⟨[false, false, false, false, false, true], [none, some 7, none]⟩

/-- Whether the call is an exit check that found the flag set. -/
def AcceptAction.isExitObserved : AcceptAction → Bool
  | .exitCheck true => true
  | _ => false

/-- Whether the call is a `waitForNextConnection` that answered the null pointer. -/
def AcceptAction.isNullAccept : AcceptAction → Bool
  | .waitForNextConnection none => true
  | _ => false

/-- The handles answered by `waitForNextConnection`, in order, null answers left out. -/
def acceptedHandles (tr : List AcceptAction) : List Handle :=
  tr.filterMap fun a => match a with
    | .waitForNextConnection (some h) => some h
    | _ => none

/-- The handles a `ClientConnection` was constructed from, in order. -/
def createdConnections (tr : List AcceptAction) : List Handle :=
  tr.filterMap fun a => match a with
    | .newClientConnection h => some h
    | _ => none

/-- Every element satisfying `p` has a successor, and that successor is `y`. -/
def FollowedBy {α : Type} (p : α → Bool) (y : α) : List α → Prop
  | [] => True
  | [x] => p x = false
  | x :: z :: rest => (p x = true → z = y) ∧ FollowedBy p y (z :: rest)

/-! ## MainComponent (MainComponent.h): the server control functions -/

/-- A `ClientConnection*` held in `clientConnections`. -/
abbrev ClientId := Nat

/-- The `StreamingSocket` owned through `serverSocket`: the port it listens on, if any. -/
structure StreamingSocket where
  listeningOn : Option Int
  deriving DecidableEq, Repr

/-- The `ServerThread` owned through `serverThread`: whether `startThread` was called. -/
structure ServerThreadObject where
  started : Bool
  deriving DecidableEq, Repr

/-- The members of `MainComponent` under "Server components" and "Client management";
`none` is the null pointer. -/
structure MainComponent where
  serverSocket : Option StreamingSocket
  serverThread : Option ServerThreadObject
  serverPort : Int
  serverRunning : Bool
  clientConnections : List ClientId
  deriving DecidableEq, Repr

/-- The members as the constructor leaves them: `serverPort (8888)`, `serverRunning (false)`. -/
def MainComponent.initial : MainComponent :=
  ⟨none, none, 8888, false, []⟩

/-- The three buttons the server functions enable and disable. -/
inductive Button where
  | startButton
  | stopButton
  | sendButton
  deriving DecidableEq, Repr

/-- The calls made by `sendMessage`, `startServer` and `stopServer` of `MainComponent`, in
program order.  `lock` and `unlock` are the entry to and the exit from a `ScopedLock` on
`clientListLock`; `client c a` is the call `a` made inside `c->sendMessage`;
`clientStopThread` and `clientDeleteSocket` are the two statements of
`~ClientConnection`, run by `delete client`. -/
inductive OwnerAction where
  | log (message : String)
  | setEnabled (button : Button) (enabled : Bool)
  | portFieldSetText (text : String)
  | messageFieldClear
  | newServerSocket
  | createListener (port : Int) (ok : Bool)
  | resetServerSocket
  | newServerThread
  | startThread
  | closeServerSocket
  | serverPrepareToStop
  | serverSignalThreadShouldExit
  | serverWaitForThreadToExit (ms : Nat) (exited : Bool)
  | deleteServerThread
  | lock
  | unlock
  | clientPrepareToStop (c : ClientId)
  | clientSignalThreadShouldExit (c : ClientId)
  | sleep (ms : Nat)
  | clientStopThread (c : ClientId) (ms : Nat)
  | clientDeleteSocket (c : ClientId)
  | clearRegistry
  | updateClientList
  | client (c : ClientId) (a : SendAction)
  deriving DecidableEq, Repr

/-- The port `startServer` uses for the value read from the port field: the value itself
when it lies in 1..65535, else 8888. -/
def effectivePort (fieldValue : Int) : Int :=
  if fieldValue ≤ 0 ∨ fieldValue > 65535 then 8888 else fieldValue

/-- The body of `MainComponent::startServer`.  `createListener` is the answer of
`StreamingSocket::createListener` for a port, `fieldValue` the value of
`portField.getText().getIntValue()`. -/
def startServer (createListener : Int → Bool) (fieldValue : Int) (s : MainComponent) :
    MainComponent × List OwnerAction :=
  if s.serverRunning then (s, [])
  else
    let parsed : List OwnerAction :=
      if fieldValue ≤ 0 ∨ fieldValue > 65535 then
        [.log "Invalid port number. Using default port 8888.", .portFieldSetText "8888"]
      else []
    let port := effectivePort fieldValue
    if createListener port then
      ({ s with serverPort := port, serverSocket := some ⟨some port⟩, serverRunning := true,
                serverThread := some ⟨true⟩ },
        parsed ++ [.newServerSocket, .createListener port true,
          .log ("Server started on port " ++ toString port),
          .setEnabled .startButton false, .setEnabled .stopButton true,
          .newServerThread, .startThread])
    else
      ({ s with serverPort := port, serverSocket := none },
        parsed ++ [.newServerSocket, .createListener port false,
          .log ("Failed to start server on port " ++ toString port), .resetServerSocket])

/-- The first loop over `clientConnections` in `stopServer`. -/
def signalClients : List ClientId → List OwnerAction
  | [] => []
  | c :: cs => .clientPrepareToStop c :: .clientSignalThreadShouldExit c :: signalClients cs

/-- The second loop over `clientConnections` in `stopServer`: `delete client` runs
`~ClientConnection`, that is `stopThread (1000)`, which waits for the thread, and
`delete clientSocket`. -/
def deleteClients : List ClientId → List OwnerAction
  | [] => []
  | c :: cs => .clientStopThread c 1000 :: .clientDeleteSocket c :: deleteClients cs

/-- The body of `MainComponent::stopServer`.  `exited` is the answer of
`serverThread->waitForThreadToExit (1000)`, `exitedAgain` the answer of the same call in
`~ServerThread`, which `serverThread = nullptr` runs.  The first loop runs over
`clientConnections` as the state holds it.  Between the two loops `clientListLock` is free
and the thread sleeps 100 ms, while the client threads run `clientDisconnected`
(`removeFirstMatchingValue`) or `clientConnected` (`add`) on the same array: `remaining` is
the content of `clientConnections` found when the lock is taken again, and the second loop
runs over it. -/
def stopServer (exited exitedAgain : Bool) (remaining : List ClientId) (s : MainComponent) :
    MainComponent × List OwnerAction :=
  if s.serverRunning then
    let closing : List OwnerAction :=
      match s.serverSocket with
      | some _ => [.log "Closing server socket...", .closeServerSocket, .log "Server socket closed"]
      | none => []
    let stopping : List OwnerAction :=
      match s.serverThread with
      | some _ =>
        [.log "Preparing thread to stop...", .serverPrepareToStop, .serverSignalThreadShouldExit,
          .log "Waiting for thread to exit...", .serverWaitForThreadToExit 1000 exited,
          .log (if exited then "Thread exited cleanly" else "WARNING: Thread did not exit in time"),
          .serverSignalThreadShouldExit, .serverPrepareToStop,
          .serverWaitForThreadToExit 1000 exitedAgain, .deleteServerThread]
      | none => []
    let release : List OwnerAction :=
      match s.serverSocket with
      | some _ => [.resetServerSocket]
      | none => []
    ({ s with serverRunning := false, serverThread := none, clientConnections := [],
              serverSocket := none },
      [.setEnabled .startButton true, .setEnabled .stopButton false,
        .setEnabled .sendButton false, .log "Stopping server..."]
      ++ closing ++ stopping
      ++ [.lock, .log ("Disconnecting " ++ toString s.clientConnections.length ++ " clients...")]
      ++ signalClients s.clientConnections
      ++ [.unlock, .sleep 100, .lock]
      ++ deleteClients remaining
      ++ [.clearRegistry, .updateClientList, .unlock]
      ++ release ++ [.log "Server stopped"])
  else (s, [])

/-- The loop of `MainComponent::sendMessage` over `clientConnections`: `client c` gives the
socket primitives of connection `c`, `description c` its `getDescription ()`. -/
def sendToClients {W : Type} (client : ClientId → ConnEnv W) (description : ClientId → String)
    (message : String) : List ClientId → W → List OwnerAction × W
  | [], w => ([], w)
  | c :: cs, w =>
    let r := ClientConnection.sendMessage (client c) message w
    let failed : List OwnerAction :=
      if r.1 then [] else [.log ("Failed to send to " ++ description c)]
    let rest := sendToClients client description message cs r.2.2
    (r.2.1.map (OwnerAction.client c) ++ failed ++ rest.1, rest.2)

/-- The body of `MainComponent::sendMessage`, the broadcast; `message` is the text of the
message field. -/
def MainComponent.sendMessage {W : Type} (client : ClientId → ConnEnv W)
    (description : ClientId → String) (message : String) (s : MainComponent) (w : W) :
    List OwnerAction × W :=
  if message.isEmpty then ([], w)
  else
    let r := sendToClients client description message s.clientConnections w
    (.messageFieldClear :: .log ("Sending to all clients: " ++ message) :: .lock ::
      (r.1 ++ [.unlock]), r.2)

/-- The position of the first element satisfying `p`. -/
def firstIndex {α : Type} (p : α → Bool) : List α → Option Nat
  | [] => none
  | a :: as => if p a then some 0 else (firstIndex p as).map (· + 1)

/-- Both kinds of call occur, and the first call satisfying `p` comes before the first
call satisfying `q`. -/
def firstBefore {α : Type} (p q : α → Bool) (tr : List α) : Bool :=
  match firstIndex p tr, firstIndex q tr with
  | some i, some j => decide (i < j)
  | _, _ => false

/-- Whether the call sets the exit flag of the server thread. -/
def OwnerAction.isServerPrepareToStop : OwnerAction → Bool
  | .serverPrepareToStop => true
  | _ => false

/-- Whether the call closes the listening socket. -/
def OwnerAction.isCloseServerSocket : OwnerAction → Bool
  | .closeServerSocket => true
  | _ => false

/-- Whether the call is `signalThreadShouldExit` on the server thread. -/
def OwnerAction.isServerSignal : OwnerAction → Bool
  | .serverSignalThreadShouldExit => true
  | _ => false

/-- Whether the call is the bounded wait for the server thread. -/
def OwnerAction.isServerWait : OwnerAction → Bool
  | .serverWaitForThreadToExit _ _ => true
  | _ => false

/-- Whether the call is a socket write of a client connection. -/
def OwnerAction.isClientWrite : OwnerAction → Bool
  | .client _ (.write _ _ _) => true
  | _ => false

/-- A server that was started on port 8888 and has the connections 1 and 2 registered. -/
def runningServer : MainComponent :=
  ⟨some ⟨some 8888⟩, some ⟨true⟩, 8888, true, [1, 2]⟩

/-- The socket primitives of every connection in concrete runs: connected, and each write
reports the number of bytes asked for. -/
def liveClient : ClientId → ConnEnv Script :=
  fun _ => { scripted with isConnected := fun w => (true, w) }

/-- Some socket write is made after the guard `clientListLock` was taken and before it is
given back. -/
def WriteWhileGuardHeld (tr : List OwnerAction) : Prop :=
  ∃ pre mid post a, tr = pre ++ .lock :: (mid ++ a :: post) ∧ a.isClientWrite = true ∧
    OwnerAction.unlock ∉ mid

/-! # Proofs -/

/-! ### Lemmas on the read loop -/

theorem pollLoop_events {W : Type} (env : ConnEnv W) (k : Nat) (w : W) :
    ∀ a ∈ listenerEvents (pollLoop env k w).trace, a.isMessage = true := by
  induction k generalizing w with
  | zero => simp [pollLoop, listenerEvents]
  | succ k ih =>
    unfold pollLoop
    simp only
    split_ifs
    · simp [listenerEvents, ConnAction.isListenerEvent]
    · simp [listenerEvents, ConnAction.isListenerEvent, ConnAction.isMessage]
    · simp [listenerEvents, ConnAction.isListenerEvent]
    · intro a ha
      apply ih (env.sleep 10 (env.read 4095 (shouldExit env w).2).2)
      simpa [listenerEvents, ConnAction.isListenerEvent] using ha

theorem readLoop_events {W : Type} (env : ConnEnv W) (fuel : Nat) (w : W) :
    ∀ a ∈ listenerEvents (readLoop env fuel w).trace, a.isMessage = true := by
  induction fuel generalizing w with
  | zero => simp [readLoop, listenerEvents]
  | succ fuel ih =>
    unfold readLoop
    simp only
    split_ifs
    · intro a ha
      apply pollLoop_events env 10 (loopCondition env w).2
      simpa [listenerEvents, ConnAction.isListenerEvent] using ha
    · intro a ha
      simp only [listenerEvents, List.filter_cons, List.filter_append, List.mem_append,
        ConnAction.isListenerEvent, Bool.false_eq_true, if_false] at ha
      rcases ha with ha | ha
      · exact pollLoop_events env 10 _ a (by simpa [listenerEvents] using ha)
      · exact ih _ a (by simpa [listenerEvents] using ha)
    · simp [listenerEvents, ConnAction.isListenerEvent]

theorem isMessage_iff (a : ConnAction) : a.isMessage = true ↔ ∃ t, a = .messageReceived t := by
  cases a <;> simp [ConnAction.isMessage]

theorem pollLoop_texts {W : Type} (env : ConnEnv W) (k : Nat) (w : W) :
    deliveredTexts (pollLoop env k w).trace
      = (positiveReads (pollLoop env k w).trace).map (decodeRead env) := by
  induction k generalizing w with
  | zero => simp [pollLoop, deliveredTexts, positiveReads]
  | succ k ih =>
    unfold pollLoop
    simp only
    split_ifs with h1 h2 h3
    · simp [deliveredTexts, positiveReads]
    · simp [deliveredTexts, positiveReads, h2, decodeRead]
    · simp [deliveredTexts, positiveReads, h2]
    · have := ih (env.sleep 10 (env.read 4095 (shouldExit env w).2).2)
      simpa [deliveredTexts, positiveReads, h2] using this

theorem readLoop_texts {W : Type} (env : ConnEnv W) (fuel : Nat) (w : W) :
    deliveredTexts (readLoop env fuel w).trace
      = (positiveReads (readLoop env fuel w).trace).map (decodeRead env) := by
  induction fuel generalizing w with
  | zero => simp [readLoop, deliveredTexts, positiveReads]
  | succ fuel ih =>
    unfold readLoop
    simp only
    split_ifs with h1 h2
    · have := pollLoop_texts env 10 (loopCondition env w).2
      simpa [deliveredTexts, positiveReads] using this
    · have hp := pollLoop_texts env 10 (loopCondition env w).2
      have hr := ih (env.sleep 50 (pollLoop env 10 (loopCondition env w).2).world)
      simp only [deliveredTexts, positiveReads] at hp hr
      simp [deliveredTexts, positiveReads, List.filterMap_append, hp, hr]
    · simp [deliveredTexts, positiveReads]

theorem pollLoop_open {W : Type} (env : ConnEnv W) (k : Nat) (w : W)
    (h : (pollLoop env k w).closed = false) :
    ∀ a ∈ (pollLoop env k w).trace, a.isNegativeRead = false := by
  induction k generalizing w with
  | zero => simp [pollLoop]
  | succ k ih =>
    unfold pollLoop at h ⊢
    simp only at h ⊢
    split_ifs at h ⊢ with h1 h2 h3
    · simp [ConnAction.isNegativeRead]
    · simp [ConnAction.isNegativeRead]; omega
    · intro a ha
      simp only [List.mem_cons] at ha
      rcases ha with rfl | rfl | rfl | ha
      · rfl
      · simp [ConnAction.isNegativeRead]; omega
      · rfl
      · exact ih _ h a ha

theorem pollLoop_closed {W : Type} (env : ConnEnv W) (k : Nat) (w : W)
    (h : (pollLoop env k w).closed = true) :
    ∃ pre n b, (pollLoop env k w).trace = pre ++ [.read n b] ∧ n < 0 ∧
      ∀ a ∈ pre, a.isNegativeRead = false := by
  induction k generalizing w with
  | zero => simp [pollLoop] at h
  | succ k ih =>
    unfold pollLoop at h ⊢
    simp only at h ⊢
    split_ifs at h ⊢ with h1 h2 h3
    · exact ⟨[.pollCheck false], _, _, rfl, h3, by simp [ConnAction.isNegativeRead]⟩
    · obtain ⟨pre, n, b, hpre, hn, hall⟩ := ih _ h
      refine ⟨ConnAction.pollCheck false :: ConnAction.read
        (env.read 4095 (shouldExit env w).2).1.1 (env.read 4095 (shouldExit env w).2).1.2 ::
        ConnAction.sleep 10 :: pre, n, b, by simp [hpre], hn, ?_⟩
      intro a ha
      simp only [List.mem_cons] at ha
      rcases ha with rfl | rfl | rfl | ha
      · rfl
      · simp [ConnAction.isNegativeRead]; omega
      · rfl
      · exact hall a ha

theorem readLoop_negative {W : Type} (env : ConnEnv W) (fuel : Nat) (w : W) :
    (∀ a ∈ (readLoop env fuel w).trace, a.isNegativeRead = false) ∨
    ((readLoop env fuel w).terminated = true ∧ ∃ pre n b,
      (readLoop env fuel w).trace = pre ++ [.read n b] ∧ n < 0 ∧
      ∀ a ∈ pre, a.isNegativeRead = false) := by
  induction fuel generalizing w with
  | zero => left; simp [readLoop]
  | succ fuel ih =>
    unfold readLoop
    simp only
    split_ifs with h1 h2
    · right
      obtain ⟨pre, n, b, hpre, hn, hall⟩ := pollLoop_closed env 10 _ h2
      refine ⟨rfl, .loopCheck true :: pre, n, b, by simp [hpre], hn, ?_⟩
      intro a ha
      simp only [List.mem_cons] at ha
      rcases ha with rfl | ha
      · rfl
      · exact hall a ha
    · have hp := pollLoop_open env 10 _ (by simpa using h2)
      have hfront : ∀ a ∈ ConnAction.loopCheck true ::
          ((pollLoop env 10 (loopCondition env w).2).trace ++ [.sleep 50]),
          a.isNegativeRead = false := by
        intro a ha
        simp only [List.mem_cons, List.mem_append, List.not_mem_nil, or_false] at ha
        rcases ha with rfl | ha | rfl
        · rfl
        · exact hp a ha
        · rfl
      rcases ih (env.sleep 50 (pollLoop env 10 (loopCondition env w).2).world) with hr | hr
      · left
        intro a ha
        simp only [List.mem_cons, List.mem_append] at ha
        rcases ha with rfl | ha | rfl | ha
        · rfl
        · exact hp a ha
        · rfl
        · exact hr a ha
      · right
        obtain ⟨ht, pre, n, b, hpre, hn, hall⟩ := hr
        refine ⟨ht, ConnAction.loopCheck true ::
          ((pollLoop env 10 (loopCondition env w).2).trace ++ [.sleep 50]) ++ pre, n, b,
          by simp [hpre], hn, ?_⟩
        intro a ha
        rcases List.mem_append.1 ha with ha | ha
        · exact hfront a ha
        · exact hall a ha
    · left; simp [ConnAction.isNegativeRead]

/-- When the first element satisfying `p` is `x`, standing right after `front`, every way
of cutting the list at an element satisfying `p` cuts it at `x`, provided nothing behind
`x` satisfies `p`. -/
theorem cut_at_first {α : Type} (p : α → Bool) (front : List α) (x : α) (back : List α)
    (hfront : ∀ y ∈ front, p y = false) (hback : ∀ y ∈ back, p y = false)
    (pre : List α) (a : α) (post : List α) (ha : p a = true)
    (h : front ++ x :: back = pre ++ a :: post) : post = back := by
  induction front generalizing pre with
  | nil =>
    cases pre with
    | nil => simp at h; exact h.2.symm
    | cons q pre =>
      simp at h
      have : a ∈ back := by rw [h.2]; simp
      rw [hback a this] at ha
      cases ha
  | cons f front ih =>
    cases pre with
    | nil =>
      simp at h
      rw [← h.1, hfront f (by simp)] at ha
      cases ha
    | cons q pre =>
      simp at h
      exact ih (fun y hy => hfront y (by simp [hy])) pre h.2

/-! ### Lemmas on the server thread -/

theorem followedBy_append {α : Type} (p : α → Bool) (y : α) (xs ys : List α)
    (hx : FollowedBy p y xs) (hy : FollowedBy p y ys) : FollowedBy p y (xs ++ ys) := by
  induction xs with
  | nil => simpa using hy
  | cons x xs ih =>
    cases xs with
    | nil =>
      cases ys with
      | nil => simpa using hx
      | cons z ys =>
        simp only [FollowedBy] at hx
        simp only [List.singleton_append, FollowedBy]
        exact ⟨fun h => (by rw [hx] at h; cases h), hy⟩
    | cons z xs =>
      simp only [FollowedBy] at hx
      simp only [List.cons_append, FollowedBy]
      exact ⟨hx.1, by simpa using ih hx.2⟩

theorem followedBy_split {α : Type} (p : α → Bool) (y : α) (tr : List α)
    (h : FollowedBy p y tr) (pre : List α) (x : α) (post : List α)
    (hsplit : tr = pre ++ x :: post) (hp : p x = true) : ∃ post', post = y :: post' := by
  induction pre generalizing tr with
  | nil =>
    subst hsplit
    cases post with
    | nil =>
      simp only [List.nil_append, FollowedBy] at h
      rw [h] at hp; cases hp
    | cons z post =>
      simp only [List.nil_append, FollowedBy] at h
      exact ⟨post, by rw [h.1 hp]⟩
  | cons q pre ih =>
    subst hsplit
    cases pre with
    | nil =>
      simp only [List.cons_append, List.nil_append, FollowedBy] at h
      exact ih (x :: post) h.2 rfl
    | cons q2 pre =>
      simp only [List.cons_append, FollowedBy] at h
      exact ih _ h.2 rfl

theorem acceptPoll_handles {W : Type} (env : AcceptEnv W) (k : Nat) (w : W) :
    createdConnections (acceptPoll env k w).trace = acceptedHandles (acceptPoll env k w).trace := by
  induction k generalizing w with
  | zero => simp [acceptPoll, createdConnections, acceptedHandles]
  | succ k ih =>
    unfold acceptPoll
    simp only
    split_ifs with h1
    · simp [createdConnections, acceptedHandles]
    · split
      · simp [createdConnections, acceptedHandles]
      · have := ih (env.sleep 5 (env.waitForNextConnection (acceptorShouldExit env w).2).2)
        simpa [createdConnections, acceptedHandles] using this

theorem acceptPoll_nullAccept {W : Type} (env : AcceptEnv W) (k : Nat) (w : W) :
    FollowedBy AcceptAction.isNullAccept (.sleep 5) (acceptPoll env k w).trace := by
  induction k generalizing w with
  | zero => simp [acceptPoll, FollowedBy]
  | succ k ih =>
    unfold acceptPoll
    simp only
    split_ifs with h1
    · simp [FollowedBy, AcceptAction.isNullAccept]
    · split
      · simp [FollowedBy, AcceptAction.isNullAccept]
      · have := ih (env.sleep 5 (env.waitForNextConnection (acceptorShouldExit env w).2).2)
        have h2 : FollowedBy AcceptAction.isNullAccept (.sleep 5)
            [.exitCheck false, .waitForNextConnection none, .sleep 5] := by
          simp [FollowedBy, AcceptAction.isNullAccept]
        exact followedBy_append _ _ _ _ h2 this

theorem acceptPoll_returned {W : Type} (env : AcceptEnv W) (k : Nat) (w : W) :
    ((acceptPoll env k w).returned = false ∧
      ∀ a ∈ (acceptPoll env k w).trace, a.isExitObserved = false) ∨
    ((acceptPoll env k w).returned = true ∧ ∃ pre,
      (acceptPoll env k w).trace = pre ++ [.exitCheck true] ∧
      ∀ a ∈ pre, a.isExitObserved = false) := by
  induction k generalizing w with
  | zero => left; simp [acceptPoll]
  | succ k ih =>
    unfold acceptPoll
    simp only
    split_ifs with h1
    · right; exact ⟨rfl, [], rfl, by simp⟩
    · split
      · left; simp [AcceptAction.isExitObserved]
      · rcases ih (env.sleep 5 (env.waitForNextConnection (acceptorShouldExit env w).2).2)
          with ⟨hr, hall⟩ | ⟨hr, pre, hpre, hall⟩
        · left
          refine ⟨hr, ?_⟩
          intro a ha
          simp only [List.mem_cons] at ha
          rcases ha with rfl | rfl | rfl | ha
          · rfl
          · rfl
          · rfl
          · exact hall a ha
        · right
          refine ⟨hr, .exitCheck false :: .waitForNextConnection none :: .sleep 5 :: pre,
            by simp [hpre], ?_⟩
          intro a ha
          simp only [List.mem_cons] at ha
          rcases ha with rfl | rfl | rfl | ha
          · rfl
          · rfl
          · rfl
          · exact hall a ha

theorem serverRun_handles {W : Type} (env : AcceptEnv W) (fuel : Nat) (w : W) :
    createdConnections (ServerThread.run env fuel w).trace
      = acceptedHandles (ServerThread.run env fuel w).trace := by
  induction fuel generalizing w with
  | zero => simp [ServerThread.run, createdConnections, acceptedHandles]
  | succ fuel ih =>
    have hp := acceptPoll_handles env 10 (acceptorShouldExit env w).2
    simp only [createdConnections, acceptedHandles] at hp
    unfold ServerThread.run
    simp only
    split_ifs with h1 h2 h3 h4
    · simp [createdConnections, acceptedHandles]
    · simpa [createdConnections, acceptedHandles] using hp
    · have hr := ih (acceptPoll env 10 (acceptorShouldExit env w).2).world
      simp only [createdConnections, acceptedHandles] at hr
      simp [createdConnections, acceptedHandles, List.filterMap_append, hp, hr]
    · simp [createdConnections, acceptedHandles, List.filterMap_append, hp]
    · have hr := ih (env.sleep 20
        (acceptorShouldExit env (acceptPoll env 10 (acceptorShouldExit env w).2).world).2)
      simp only [createdConnections, acceptedHandles] at hr
      simp [createdConnections, acceptedHandles, List.filterMap_append, hp, hr]

theorem serverRun_nullAccept {W : Type} (env : AcceptEnv W) (fuel : Nat) (w : W) :
    FollowedBy AcceptAction.isNullAccept (.sleep 5) (ServerThread.run env fuel w).trace := by
  induction fuel generalizing w with
  | zero => simp [ServerThread.run, FollowedBy]
  | succ fuel ih =>
    have hp := acceptPoll_nullAccept env 10 (acceptorShouldExit env w).2
    have h0 : FollowedBy AcceptAction.isNullAccept (.sleep 5) [.exitCheck false] := by
      simp [FollowedBy, AcceptAction.isNullAccept]
    unfold ServerThread.run
    simp only
    split_ifs with h1 h2 h3 h4
    · simp [FollowedBy, AcceptAction.isNullAccept]
    · exact followedBy_append _ _ [_] _ h0 hp
    · exact followedBy_append _ _ [_] _ h0 (followedBy_append _ _ _ _ hp (ih _))
    · refine followedBy_append _ _ [_] _ h0 (followedBy_append _ _ _ _ hp ?_)
      simp [FollowedBy, AcceptAction.isNullAccept]
    · refine followedBy_append _ _ [_] _ h0 (followedBy_append _ _ _ _ hp ?_)
      refine followedBy_append _ _ [.exitCheck false, .sleep 20] _ ?_ (ih _)
      simp [FollowedBy, AcceptAction.isNullAccept]

theorem serverRun_shape {W : Type} (env : AcceptEnv W) (fuel : Nat) (w : W) :
    ((ServerThread.run env fuel w).terminated = false ∧
      ∀ a ∈ (ServerThread.run env fuel w).trace, a.isExitObserved = false) ∨
    ((ServerThread.run env fuel w).terminated = true ∧ ∃ pre,
      (ServerThread.run env fuel w).trace = pre ++ [.exitCheck true] ∧
      ∀ a ∈ pre, a.isExitObserved = false) := by
  induction fuel generalizing w with
  | zero => left; simp [ServerThread.run]
  | succ fuel ih =>
    unfold ServerThread.run
    simp only
    split_ifs with h1 h2 h3 h4
    · right; exact ⟨rfl, [], rfl, by simp⟩
    · right
      rcases acceptPoll_returned env 10 (acceptorShouldExit env w).2
        with ⟨hr, _⟩ | ⟨_, pre, hpre, hall⟩
      · rw [hr] at h2; cases h2
      · refine ⟨rfl, .exitCheck false :: pre, by simp [hpre], ?_⟩
        intro a ha
        simp only [List.mem_cons] at ha
        rcases ha with rfl | ha
        · rfl
        · exact hall a ha
    · have hp : ∀ a ∈ (acceptPoll env 10 (acceptorShouldExit env w).2).trace,
          a.isExitObserved = false := by
        rcases acceptPoll_returned env 10 (acceptorShouldExit env w).2
          with ⟨_, hall⟩ | ⟨hr, _⟩
        · exact hall
        · exact absurd hr h2
      rcases ih (acceptPoll env 10 (acceptorShouldExit env w).2).world
        with ⟨ht, hall⟩ | ⟨ht, pre, hpre, hall⟩
      · left
        refine ⟨ht, ?_⟩
        intro a ha
        simp only [List.mem_cons, List.mem_append] at ha
        rcases ha with rfl | ha | ha
        · rfl
        · exact hp a ha
        · exact hall a ha
      · right
        refine ⟨ht, .exitCheck false ::
          ((acceptPoll env 10 (acceptorShouldExit env w).2).trace ++ pre), by simp [hpre], ?_⟩
        intro a ha
        simp only [List.mem_cons, List.mem_append] at ha
        rcases ha with rfl | ha | ha
        · rfl
        · exact hp a ha
        · exact hall a ha
    · have hp : ∀ a ∈ (acceptPoll env 10 (acceptorShouldExit env w).2).trace,
          a.isExitObserved = false := by
        rcases acceptPoll_returned env 10 (acceptorShouldExit env w).2
          with ⟨_, hall⟩ | ⟨hr, _⟩
        · exact hall
        · exact absurd hr h2
      right
      refine ⟨rfl, .exitCheck false :: (acceptPoll env 10 (acceptorShouldExit env w).2).trace,
        by simp, ?_⟩
      intro a ha
      simp only [List.mem_cons] at ha
      rcases ha with rfl | ha
      · rfl
      · exact hp a ha
    · have hp : ∀ a ∈ (acceptPoll env 10 (acceptorShouldExit env w).2).trace,
          a.isExitObserved = false := by
        rcases acceptPoll_returned env 10 (acceptorShouldExit env w).2
          with ⟨_, hall⟩ | ⟨hr, _⟩
        · exact hall
        · exact absurd hr h2
      rcases ih (env.sleep 20
          (acceptorShouldExit env (acceptPoll env 10 (acceptorShouldExit env w).2).world).2)
        with ⟨ht, hall⟩ | ⟨ht, pre, hpre, hall⟩
      · left
        refine ⟨ht, ?_⟩
        intro a ha
        simp only [List.mem_cons, List.mem_append] at ha
        rcases ha with rfl | ha | rfl | rfl | ha
        · rfl
        · exact hp a ha
        · rfl
        · rfl
        · exact hall a ha
      · right
        refine ⟨ht, .exitCheck false ::
          ((acceptPoll env 10 (acceptorShouldExit env w).2).trace ++
            .exitCheck false :: .sleep 20 :: pre), by simp [hpre], ?_⟩
        intro a ha
        simp only [List.mem_cons, List.mem_append] at ha
        rcases ha with rfl | ha | rfl | rfl | ha
        · rfl
        · exact hp a ha
        · rfl
        · rfl
        · exact hall a ha

/-! ### Lemmas on the server control functions -/

theorem sendToClients_calls {W : Type} (client : ClientId → ConnEnv W)
    (description : ClientId → String) (message : String) (reg : List ClientId) (w : W) :
    ∀ a ∈ (sendToClients client description message reg w).1,
      a ≠ OwnerAction.lock ∧ a ≠ OwnerAction.unlock := by
  induction reg generalizing w with
  | nil => simp [sendToClients]
  | cons c reg ih =>
    intro a ha
    simp only [sendToClients, List.mem_append, List.mem_map] at ha
    rcases ha with (⟨x, _, rfl⟩ | ha) | ha
    · exact ⟨by simp, by simp⟩
    · split_ifs at ha
      · cases ha
      · simp only [List.mem_singleton] at ha
        subst ha
        exact ⟨by simp, by simp⟩
    · exact ih _ a ha

/-! ### What follows a delivery -/

theorem followedBy_of_none {α : Type} (p : α → Bool) (y : α) (xs : List α)
    (h : ∀ a ∈ xs, p a = false) : FollowedBy p y xs := by
  induction xs with
  | nil => trivial
  | cons x xs ih =>
    cases xs with
    | nil => simpa [FollowedBy] using h
    | cons z xs =>
      simp only [FollowedBy]
      refine ⟨fun hx => ?_, ih (fun a ha => h a (by simp [ha]))⟩
      rw [h x (by simp)] at hx
      cases hx

theorem pollLoop_delivery {W : Type} (env : ConnEnv W) (k : Nat) (w : W) :
    FollowedBy ConnAction.isMessage (.sleep 50) ((pollLoop env k w).trace ++ [.sleep 50]) := by
  induction k generalizing w with
  | zero => simp [pollLoop, FollowedBy, ConnAction.isMessage]
  | succ k ih =>
    unfold pollLoop
    simp only
    split_ifs with h1 h2 h3
    · simp [FollowedBy, ConnAction.isMessage]
    · simp [FollowedBy, ConnAction.isMessage]
    · simp [FollowedBy, ConnAction.isMessage]
    · have h0 : FollowedBy ConnAction.isMessage (.sleep 50)
          [.pollCheck false, .read (env.read 4095 (shouldExit env w).2).1.1
            (env.read 4095 (shouldExit env w).2).1.2, .sleep 10] := by
        simp [FollowedBy, ConnAction.isMessage]
      have := followedBy_append _ _ _ _ h0
        (ih (env.sleep 10 (env.read 4095 (shouldExit env w).2).2))
      simpa using this

theorem pollLoop_closed_silent {W : Type} (env : ConnEnv W) (k : Nat) (w : W)
    (h : (pollLoop env k w).closed = true) :
    ∀ a ∈ (pollLoop env k w).trace, a.isMessage = false := by
  induction k generalizing w with
  | zero => simp [pollLoop] at h
  | succ k ih =>
    unfold pollLoop at h ⊢
    simp only at h ⊢
    split_ifs at h ⊢ with h1 h2 h3
    · simp [ConnAction.isMessage]
    · intro a ha
      simp only [List.mem_cons] at ha
      rcases ha with rfl | rfl | rfl | ha
      · rfl
      · rfl
      · rfl
      · exact ih _ h a ha

theorem readLoop_delivery {W : Type} (env : ConnEnv W) (fuel : Nat) (w : W) :
    FollowedBy ConnAction.isMessage (.sleep 50) (readLoop env fuel w).trace := by
  induction fuel generalizing w with
  | zero => simp [readLoop, FollowedBy]
  | succ fuel ih =>
    have h0 : FollowedBy ConnAction.isMessage (.sleep 50) [.loopCheck true] := by
      simp [FollowedBy, ConnAction.isMessage]
    unfold readLoop
    simp only
    split_ifs with h1 h2
    · exact followedBy_append _ _ [_] _ h0
        (followedBy_of_none _ _ _ (pollLoop_closed_silent env 10 _ h2))
    · have hp := pollLoop_delivery env 10 (loopCondition env w).2
      have := followedBy_append _ _ [_] _ h0 (followedBy_append _ _ _ _ hp (ih
        (env.sleep 50 (pollLoop env 10 (loopCondition env w).2).world)))
      simpa using this
    · simp [FollowedBy, ConnAction.isMessage]

/-- In every run of `ClientConnection::run`, each `messageReceived` is followed at once by
the 50 ms sleep: the statement `sleep (50)` behind the inner loop is reached on every way
out of that loop except the `goto`. -/
theorem delivery_followed_by_long_sleep {W : Type} (env : ConnEnv W) (fuel : Nat) (w : W)
    (pre post : List ConnAction) (t : String)
    (h : (ClientConnection.run env fuel w).trace = pre ++ .messageReceived t :: post) :
    ∃ post', post = .sleep 50 :: post' := by
  have hr := readLoop_delivery env fuel (env.clientConnected w)
  have h0 : FollowedBy ConnAction.isMessage (.sleep 50) [.clientConnected] := by
    simp [FollowedBy, ConnAction.isMessage]
  have h1 : FollowedBy ConnAction.isMessage (.sleep 50) [.clientDisconnected] := by
    simp [FollowedBy, ConnAction.isMessage]
  have hall : FollowedBy ConnAction.isMessage (.sleep 50)
      (ClientConnection.run env fuel w).trace := by
    unfold ClientConnection.run
    simp only
    split_ifs
    · exact followedBy_append _ _ [_] _ h0 (followedBy_append _ _ _ _ hr h1)
    · exact followedBy_append _ _ [_] _ h0 hr
  exact followedBy_split _ _ _ hall pre _ post h rfl

/-! ### The bound on the iterations

A run that has ended within a bound is the same run under every larger bound: the bound
only cuts runs that have not ended. -/

theorem readLoop_stable {W : Type} (env : ConnEnv W) (fuel : Nat) (w : W)
    (h : (readLoop env fuel w).terminated = true) :
    readLoop env (fuel + 1) w = readLoop env fuel w := by
  induction fuel generalizing w with
  | zero => simp [readLoop] at h
  | succ n ih =>
    rw [readLoop.eq_2 env w (n + 1), readLoop.eq_2 env w n]
    rw [readLoop.eq_2 env w n] at h
    simp only at h ⊢
    split_ifs at h ⊢ with h1 h2
    · rfl
    · rw [ih _ h]
    · rfl

theorem run_stable {W : Type} (env : ConnEnv W) (fuel : Nat) (w : W)
    (h : (ClientConnection.run env fuel w).terminated = true) :
    ClientConnection.run env (fuel + 1) w = ClientConnection.run env fuel w := by
  have ht : (readLoop env fuel (env.clientConnected w)).terminated = true := by
    by_contra hc
    simp [ClientConnection.run, hc] at h
  unfold ClientConnection.run
  rw [readLoop_stable env fuel _ ht]

theorem serverRun_stable {W : Type} (env : AcceptEnv W) (fuel : Nat) (w : W)
    (h : (ServerThread.run env fuel w).terminated = true) :
    ServerThread.run env (fuel + 1) w = ServerThread.run env fuel w := by
  induction fuel generalizing w with
  | zero => simp [ServerThread.run] at h
  | succ n ih =>
    rw [ServerThread.run.eq_2 env w (n + 1), ServerThread.run.eq_2 env w n]
    rw [ServerThread.run.eq_2 env w n] at h
    simp only at h ⊢
    split_ifs at h ⊢ with h1 h2 h3 h4
    · rfl
    · rfl
    · rw [ih _ h]
    · rfl
    · rw [ih _ h]

/-! ### Claims on the read loop -/

/-- C1: in every run of `ClientConnection::run` that ends, the Listener events are one
`clientConnected` first, one `clientDisconnected` last, and between the two nothing but
`messageReceived`; each of the two occurs exactly once. -/
theorem run_events_bracketed {W : Type} (env : ConnEnv W) (fuel : Nat) (w : W)
    (h : (ClientConnection.run env fuel w).terminated = true) :
    (∃ mid, listenerEvents (ClientConnection.run env fuel w).trace
        = .clientConnected :: (mid ++ [.clientDisconnected]) ∧
      ∀ a ∈ mid, ∃ t, a = .messageReceived t) ∧
    (listenerEvents (ClientConnection.run env fuel w).trace).count .clientConnected = 1 ∧
    (listenerEvents (ClientConnection.run env fuel w).trace).count .clientDisconnected = 1 := by
  have hev := readLoop_events env fuel (env.clientConnected w)
  have ht : (readLoop env fuel (env.clientConnected w)).terminated = true := by
    by_contra hc
    simp [ClientConnection.run, hc] at h
  have htr : listenerEvents (ClientConnection.run env fuel w).trace
      = .clientConnected :: (listenerEvents (readLoop env fuel (env.clientConnected w)).trace
          ++ [.clientDisconnected]) := by
    simp [ClientConnection.run, ht, listenerEvents, ConnAction.isListenerEvent,
      List.filter_append]
  have hmid : ∀ a ∈ listenerEvents (readLoop env fuel (env.clientConnected w)).trace,
      ∃ t, a = .messageReceived t := fun a ha => (isMessage_iff a).1 (hev a ha)
  refine ⟨⟨_, htr, hmid⟩, ?_, ?_⟩
  · rw [htr, List.count_cons_self, List.count_append]
    have : List.count ConnAction.clientConnected
        (listenerEvents (readLoop env fuel (env.clientConnected w)).trace) = 0 := by
      rw [List.count_eq_zero]
      intro hmem
      obtain ⟨t, ht⟩ := hmid _ hmem
      cases ht
    simp [this]
  · rw [htr, List.count_cons, List.count_append]
    have : List.count ConnAction.clientDisconnected
        (listenerEvents (readLoop env fuel (env.clientConnected w)).trace) = 0 := by
      rw [List.count_eq_zero]
      intro hmem
      obtain ⟨t, ht⟩ := hmid _ hmem
      cases ht
    simp [this]

/-- Witness of C1: a client that sends `PING`, idles once and then fails is run to its end. -/
theorem run_events_bracketed_witness :
    (ClientConnection.run scripted 5 pingIdleFail).terminated = true ∧
    listenerEvents (ClientConnection.run scripted 5 pingIdleFail).trace
      = [.clientConnected, .messageReceived "PING\n", .clientDisconnected] ∧
    ((∃ mid, listenerEvents (ClientConnection.run scripted 5 pingIdleFail).trace
        = .clientConnected :: (mid ++ [.clientDisconnected]) ∧
      ∀ a ∈ mid, ∃ t, a = .messageReceived t) ∧
    (listenerEvents (ClientConnection.run scripted 5 pingIdleFail).trace).count
        .clientConnected = 1 ∧
    (listenerEvents (ClientConnection.run scripted 5 pingIdleFail).trace).count
        .clientDisconnected = 1) :=
  ⟨by decide, by decide, run_events_bracketed scripted 5 pingIdleFail (by decide)⟩

/-- C2: in every run of the read loop, whether it has ended or not, the texts handed to
`messageReceived` are, in order, the decodings `fromUTF8 (buffer, bytesRead)` of the reads
that answered a positive count; reads answering zero or a negative count contribute
nothing. -/
theorem run_delivers_positive_reads {W : Type} (env : ConnEnv W) (fuel : Nat) (w : W) :
    deliveredTexts (ClientConnection.run env fuel w).trace
      = (positiveReads (ClientConnection.run env fuel w).trace).map (decodeRead env) := by
  have := readLoop_texts env fuel (env.clientConnected w)
  simp only [deliveredTexts, positiveReads] at this
  unfold ClientConnection.run
  simp only
  split_ifs
  · simp [deliveredTexts, positiveReads, List.filterMap_append, this]
  · simp [deliveredTexts, positiveReads, this]

/-- C9: in every run of the read loop, a read answering a negative count is followed by
`clientDisconnected` and by nothing else (no read, no sleep, no `messageReceived`), and
the run has ended; and every run that has ended, on whichever exit, made
`clientDisconnected` its last call. -/
theorem negative_read_disconnects {W : Type} (env : ConnEnv W) (fuel : Nat) (w : W) :
    (∀ (pre post : List ConnAction) (n : Int) (buf : List Byte), n < 0 →
      (ClientConnection.run env fuel w).trace = pre ++ .read n buf :: post →
      post = [.clientDisconnected] ∧ (ClientConnection.run env fuel w).terminated = true) ∧
    ((ClientConnection.run env fuel w).terminated = true →
      (ClientConnection.run env fuel w).trace.getLast? = some .clientDisconnected) := by
  constructor
  · intro pre post n buf hn h
    have hneg : (ConnAction.read n buf).isNegativeRead = true := by
      simp [ConnAction.isNegativeRead, hn]
    have hmem : ConnAction.read n buf ∈ (ClientConnection.run env fuel w).trace := by
      rw [h]; simp
    rcases readLoop_negative env fuel (env.clientConnected w)
      with hno | ⟨ht, fr, m, b, hfr, hm, hall⟩
    · exfalso
      unfold ClientConnection.run at hmem
      simp only at hmem
      split_ifs at hmem
      · simp only [List.mem_cons, List.mem_append, List.not_mem_nil, or_false] at hmem
        rcases hmem with hmem | hmem | hmem
        · cases hmem
        · rw [hno _ hmem] at hneg; cases hneg
        · cases hmem
      · simp only [List.mem_cons] at hmem
        rcases hmem with hmem | hmem
        · cases hmem
        · rw [hno _ hmem] at hneg; cases hneg
    · have htr : (ClientConnection.run env fuel w).trace
          = (.clientConnected :: fr) ++ .read m b :: [.clientDisconnected] := by
        simp [ClientConnection.run, ht, hfr]
      have hterm : (ClientConnection.run env fuel w).terminated = true := by
        simp [ClientConnection.run, ht]
      refine ⟨?_, hterm⟩
      rw [htr] at h
      refine cut_at_first ConnAction.isNegativeRead (.clientConnected :: fr) (.read m b)
        [.clientDisconnected] ?_ ?_ pre (.read n buf) post hneg h
      · intro y hy
        simp only [List.mem_cons] at hy
        rcases hy with rfl | hy
        · rfl
        · exact hall y hy
      · intro y hy
        simp only [List.mem_cons, List.not_mem_nil, or_false] at hy
        subst hy
        rfl
  · intro ht
    have hr : (readLoop env fuel (env.clientConnected w)).terminated = true := by
      by_contra hc
      simp [ClientConnection.run, hc] at ht
    have htr : (ClientConnection.run env fuel w).trace
        = (.clientConnected :: (readLoop env fuel (env.clientConnected w)).trace)
            ++ [.clientDisconnected] := by
      simp [ClientConnection.run, hr]
    rw [htr, List.getLast?_append]
    rfl

/-- Witness of C9: the third read of this client fails. -/
theorem negative_read_disconnects_witness :
    (ClientConnection.run scripted 5 pingIdleFail).trace
      = [.clientConnected, .loopCheck true, .pollCheck false, .read 5 [80, 73, 78, 71, 10],
          .messageReceived "PING\n", .sleep 50, .loopCheck true, .pollCheck false, .read 0 [],
          .sleep 10, .pollCheck false] ++ .read (-1) [] :: [.clientDisconnected] ∧
    ([ConnAction.clientDisconnected] = [.clientDisconnected] ∧
      (ClientConnection.run scripted 5 pingIdleFail).terminated = true) :=
  ⟨by decide, (negative_read_disconnects scripted 5 pingIdleFail).1
    [.clientConnected, .loopCheck true, .pollCheck false, .read 5 [80, 73, 78, 71, 10],
      .messageReceived "PING\n", .sleep 50, .loopCheck true, .pollCheck false, .read 0 [],
      .sleep 10, .pollCheck false] [.clientDisconnected] (-1) [] (by decide) (by decide)⟩

/-- C7, at the failing input: the first read of this client answers five bytes; the run
delivers the message, leaves the inner loop and sleeps 50 ms before the outer condition is
evaluated again. -/
theorem run_sleeps_after_delivery :
    (ClientConnection.run scripted 5 pingThenExit).trace
      = [.clientConnected, .loopCheck true, .pollCheck false, .read 5 [80, 73, 78, 71, 10],
          .messageReceived "PING\n", .sleep 50, .loopCheck false, .clientDisconnected] := by
  decide

/-- C5: `ClientConnection::sendMessage` answers `false` and writes nothing when the socket
reports not connected; otherwise it performs one write, of the UTF-8 bytes of the text,
and answers `true` exactly when that write reports a positive byte count, so that a write
reporting zero bytes is answered `false`. -/
theorem sendMessage_result {W : Type} (env : ConnEnv W) (message : String) (w : W) :
    ((env.isConnected w).1 = false →
      (ClientConnection.sendMessage env message w).1 = false ∧
      (ClientConnection.sendMessage env message w).2.1 = [.isConnected false]) ∧
    ((env.isConnected w).1 = true →
      (ClientConnection.sendMessage env message w).2.1
        = [.isConnected true, .write (env.toRawUTF8 message) (env.getNumBytesAsUTF8 message)
            (env.write (env.toRawUTF8 message) (env.getNumBytesAsUTF8 message)
              (env.isConnected w).2).1] ∧
      ((ClientConnection.sendMessage env message w).1 = true ↔
        0 < (env.write (env.toRawUTF8 message) (env.getNumBytesAsUTF8 message)
              (env.isConnected w).2).1) ∧
      ((env.write (env.toRawUTF8 message) (env.getNumBytesAsUTF8 message)
              (env.isConnected w).2).1 = 0 →
        (ClientConnection.sendMessage env message w).1 = false)) := by
  constructor
  · intro h
    simp [ClientConnection.sendMessage, h]
  · intro h
    simp [ClientConnection.sendMessage, h]
    intro h0
    omega

/-! ### Claim on the server thread -/

/-- C10: in every run of `ServerThread::run`, (1) a run that has ended ended with an exit
check that found the flag set; (2) nothing follows such a check, neither an accept nor a
new connection, wherever in the poll cycle it stands, and the run has ended there; (3) a
`waitForNextConnection` that answers the null pointer is followed by the 5 ms sleep, so
the loop goes on; (4) the connections created are, in order, the non-null handles
accepted, one for each. -/
theorem acceptor_ends_only_at_exit_check {W : Type} (env : AcceptEnv W) (fuel : Nat) (w : W) :
    ((ServerThread.run env fuel w).terminated = true →
      ∃ pre, (ServerThread.run env fuel w).trace = pre ++ [.exitCheck true]) ∧
    (∀ pre post, (ServerThread.run env fuel w).trace = pre ++ .exitCheck true :: post →
      post = [] ∧ (ServerThread.run env fuel w).terminated = true) ∧
    (∀ pre post, (ServerThread.run env fuel w).trace
        = pre ++ .waitForNextConnection none :: post → ∃ post', post = .sleep 5 :: post') ∧
    createdConnections (ServerThread.run env fuel w).trace
      = acceptedHandles (ServerThread.run env fuel w).trace := by
  refine ⟨?_, ?_, ?_, serverRun_handles env fuel w⟩
  · intro ht
    rcases serverRun_shape env fuel w with ⟨hf, _⟩ | ⟨_, pre, hpre, _⟩
    · rw [ht] at hf; cases hf
    · exact ⟨pre, hpre⟩
  · intro pre post h
    rcases serverRun_shape env fuel w with ⟨_, hall⟩ | ⟨ht, fr, hfr, hall⟩
    · have hmem : AcceptAction.exitCheck true ∈ (ServerThread.run env fuel w).trace := by
        rw [h]; simp
      have := hall _ hmem
      simp [AcceptAction.isExitObserved] at this
    · refine ⟨?_, ht⟩
      rw [hfr] at h
      exact cut_at_first AcceptAction.isExitObserved fr (.exitCheck true) [] hall (by simp)
        pre (.exitCheck true) post rfl h
  · intro pre post h
    exact followedBy_split _ _ _ (serverRun_nullAccept env fuel w) pre _ post h rfl

/-- Witness of C10: one failed accept, one accepted client, then the exit flag is found
set inside the next poll cycle, after another failed accept. -/
theorem acceptor_ends_only_at_exit_check_witness :
    (ServerThread.run acceptScripted 3 acceptOneThenStop).trace
      = [.exitCheck false, .exitCheck false, .waitForNextConnection none, .sleep 5,
          .exitCheck false, .waitForNextConnection (some 7), .newClientConnection 7,
          .exitCheck false, .exitCheck false, .waitForNextConnection none, .sleep 5,
          .exitCheck true] ∧
    (ServerThread.run acceptScripted 3 acceptOneThenStop).terminated = true ∧
    (∃ pre, (ServerThread.run acceptScripted 3 acceptOneThenStop).trace
      = pre ++ [.exitCheck true]) :=
  ⟨by decide, by decide,
    (acceptor_ends_only_at_exit_check acceptScripted 3 acceptOneThenStop).1 (by decide)⟩

/-! ### Claims on the server control functions -/

/-- C3, as stated, fails on a running server: `stopServer` makes its first
`closeServerSocket` at position 5 and its first `serverPrepareToStop` at position 8, so the
exit flag is not set before the socket is closed. -/
theorem stopServer_flag_not_before_close :
    firstIndex OwnerAction.isCloseServerSocket
      (stopServer true true [1, 2] runningServer).2 = some 5 ∧
    firstIndex OwnerAction.isServerPrepareToStop
      (stopServer true true [1, 2] runningServer).2 = some 8 ∧
    ¬ (firstBefore OwnerAction.isServerPrepareToStop OwnerAction.isCloseServerSocket
          (stopServer true true [1, 2] runningServer).2 = true ∧
        firstBefore OwnerAction.isCloseServerSocket OwnerAction.isServerWait
          (stopServer true true [1, 2] runningServer).2 = true ∧
        firstBefore OwnerAction.isServerPrepareToStop OwnerAction.isServerWait
          (stopServer true true [1, 2] runningServer).2 = true) := by
  decide

/-- C3, amended: on a running server that holds its listening socket and its server
thread, `stopServer` closes the listening socket first, then sets the exit flag of the
server thread (`prepareToStop`), then signals the thread (`signalThreadShouldExit`), and
the bounded wait for that thread comes after all three: the trace begins with the three
button updates, the log lines and, at the positions 5, 8, 9 and 11, these four calls, and
none of the four kinds of call occurs earlier. -/
theorem stopServer_shutdown_order (exited exitedAgain : Bool) (remaining : List ClientId)
    (s : MainComponent) (hr : s.serverRunning = true) (hs : s.serverSocket.isSome = true)
    (ht : s.serverThread.isSome = true) :
    firstBefore OwnerAction.isCloseServerSocket OwnerAction.isServerPrepareToStop
      (stopServer exited exitedAgain remaining s).2 = true ∧
    firstBefore OwnerAction.isServerPrepareToStop OwnerAction.isServerWait
      (stopServer exited exitedAgain remaining s).2 = true ∧
    firstBefore OwnerAction.isCloseServerSocket OwnerAction.isServerWait
      (stopServer exited exitedAgain remaining s).2 = true ∧
    firstBefore OwnerAction.isCloseServerSocket OwnerAction.isServerSignal
      (stopServer exited exitedAgain remaining s).2 = true ∧
    firstBefore OwnerAction.isServerPrepareToStop OwnerAction.isServerSignal
      (stopServer exited exitedAgain remaining s).2 = true ∧
    firstBefore OwnerAction.isServerSignal OwnerAction.isServerWait
      (stopServer exited exitedAgain remaining s).2 = true ∧
    firstIndex OwnerAction.isCloseServerSocket
      (stopServer exited exitedAgain remaining s).2 = some 5 ∧
    firstIndex OwnerAction.isServerPrepareToStop
      (stopServer exited exitedAgain remaining s).2 = some 8 ∧
    firstIndex OwnerAction.isServerSignal
      (stopServer exited exitedAgain remaining s).2 = some 9 ∧
    firstIndex OwnerAction.isServerWait
      (stopServer exited exitedAgain remaining s).2 = some 11 ∧
    ∃ rest, (stopServer exited exitedAgain remaining s).2
      = [.setEnabled .startButton true, .setEnabled .stopButton false,
          .setEnabled .sendButton false, .log "Stopping server...",
          .log "Closing server socket...", .closeServerSocket, .log "Server socket closed",
          .log "Preparing thread to stop...", .serverPrepareToStop,
          .serverSignalThreadShouldExit, .log "Waiting for thread to exit...",
          .serverWaitForThreadToExit 1000 exited] ++ rest := by
  rcases s with ⟨sock, thr, port, running, reg⟩
  simp only at hr
  subst hr
  cases sock with
  | none => simp at hs
  | some sock =>
    cases thr with
    | none => simp at ht
    | some thr =>
      refine ⟨?_, ?_, ?_, ?_, ?_, ?_, ?_, ?_, ?_, ?_, ?_⟩
      · simp [stopServer, firstBefore, firstIndex, OwnerAction.isCloseServerSocket,
          OwnerAction.isServerPrepareToStop]
      · simp [stopServer, firstBefore, firstIndex, OwnerAction.isServerPrepareToStop,
          OwnerAction.isServerWait]
      · simp [stopServer, firstBefore, firstIndex, OwnerAction.isCloseServerSocket,
          OwnerAction.isServerWait]
      · simp [stopServer, firstBefore, firstIndex, OwnerAction.isCloseServerSocket,
          OwnerAction.isServerSignal]
      · simp [stopServer, firstBefore, firstIndex, OwnerAction.isServerPrepareToStop,
          OwnerAction.isServerSignal]
      · simp [stopServer, firstBefore, firstIndex, OwnerAction.isServerSignal,
          OwnerAction.isServerWait]
      · simp [stopServer, firstIndex, OwnerAction.isCloseServerSocket]
      · simp [stopServer, firstIndex, OwnerAction.isServerPrepareToStop]
      · simp [stopServer, firstIndex, OwnerAction.isServerSignal]
      · simp [stopServer, firstIndex, OwnerAction.isServerWait]
      · exact ⟨_, by simp [stopServer]; rfl⟩

/-- Witness of the amended C3, on a server started on port 8888 with two connections, of
which connection 2 is still registered after the sleep. -/
theorem stopServer_shutdown_order_witness :
    firstBefore OwnerAction.isCloseServerSocket OwnerAction.isServerPrepareToStop
      (stopServer true false [2] runningServer).2 = true ∧
    firstBefore OwnerAction.isServerPrepareToStop OwnerAction.isServerSignal
      (stopServer true false [2] runningServer).2 = true ∧
    firstBefore OwnerAction.isServerSignal OwnerAction.isServerWait
      (stopServer true false [2] runningServer).2 = true :=
  ⟨(stopServer_shutdown_order true false [2] runningServer (by decide) (by decide)
      (by decide)).1,
    (stopServer_shutdown_order true false [2] runningServer (by decide) (by decide)
      (by decide)).2.2.2.2.1,
    (stopServer_shutdown_order true false [2] runningServer (by decide) (by decide)
      (by decide)).2.2.2.2.2.1⟩

/-- C6, as stated, fails: the server as constructed, asked to listen on port 9999 while
that port is taken, is not left as before the call, for `serverPort` was 8888 and is
9999 after it. -/
theorem startServer_failure_changes_port :
    (fun _ => false : Int → Bool) (effectivePort 9999) = false ∧
    MainComponent.initial.serverPort = 8888 ∧
    (startServer (fun _ => false) 9999 MainComponent.initial).1.serverPort = 9999 ∧
    (startServer (fun _ => false) 9999 MainComponent.initial).1 ≠ MainComponent.initial := by
  decide

/-- C6, amended: when the server is not running and `createListener` fails on the port
used, `startServer` logs the failure and starts nothing: `serverRunning` stays false, no
server thread is created or started and `serverThread` is as it was, `serverSocket` is
null and the registry is untouched.  The state after the call is the state before it with
`serverSocket` null and with `serverPort` holding the port that was tried.  A following
call whose `createListener` succeeds sets `serverRunning`, holds the listening socket, and
creates and starts the server thread. -/
theorem startServer_listen_failure (createListener : Int → Bool) (fieldValue : Int)
    (s : MainComponent) (hs : s.serverRunning = false)
    (hf : createListener (effectivePort fieldValue) = false) :
    OwnerAction.log ("Failed to start server on port " ++ toString (effectivePort fieldValue))
      ∈ (startServer createListener fieldValue s).2 ∧
    (startServer createListener fieldValue s).1.serverRunning = false ∧
    (startServer createListener fieldValue s).1.serverThread = s.serverThread ∧
    OwnerAction.newServerThread ∉ (startServer createListener fieldValue s).2 ∧
    OwnerAction.startThread ∉ (startServer createListener fieldValue s).2 ∧
    (startServer createListener fieldValue s).1.serverSocket = none ∧
    (startServer createListener fieldValue s).1.clientConnections = s.clientConnections ∧
    (startServer createListener fieldValue s).1.serverPort = effectivePort fieldValue ∧
    (startServer createListener fieldValue s).1
      = { s with serverPort := effectivePort fieldValue, serverSocket := none } ∧
    ∀ (createListener2 : Int → Bool) (fieldValue2 : Int),
      createListener2 (effectivePort fieldValue2) = true →
      (startServer createListener2 fieldValue2
        (startServer createListener fieldValue s).1).1.serverRunning = true ∧
      (startServer createListener2 fieldValue2
        (startServer createListener fieldValue s).1).1.serverSocket
          = some ⟨some (effectivePort fieldValue2)⟩ ∧
      (startServer createListener2 fieldValue2
        (startServer createListener fieldValue s).1).1.serverThread = some ⟨true⟩ ∧
      ∃ pre, (startServer createListener2 fieldValue2
        (startServer createListener fieldValue s).1).2
          = pre ++ [.createListener (effectivePort fieldValue2) true,
              .log ("Server started on port " ++ toString (effectivePort fieldValue2)),
              .setEnabled .startButton false, .setEnabled .stopButton true,
              .newServerThread, .startThread] := by
  have h1 : startServer createListener fieldValue s
      = ({ s with serverPort := effectivePort fieldValue, serverSocket := none },
          (if fieldValue ≤ 0 ∨ fieldValue > 65535 then
            [.log "Invalid port number. Using default port 8888.", .portFieldSetText "8888"]
          else []) ++ [.newServerSocket, .createListener (effectivePort fieldValue) false,
          .log ("Failed to start server on port " ++ toString (effectivePort fieldValue)),
          .resetServerSocket]) := by
    simp [startServer, hs, hf]
  rw [h1]
  refine ⟨by simp, hs, rfl, ?_, ?_, rfl, rfl, rfl, rfl, ?_⟩
  · split_ifs <;> simp
  · split_ifs <;> simp
  · intro createListener2 fieldValue2 h2
    refine ⟨by simp [startServer, hs, h2], by simp [startServer, hs, h2],
      by simp [startServer, hs, h2], ?_⟩
    exact ⟨(if fieldValue2 ≤ 0 ∨ fieldValue2 > 65535 then
        [.log "Invalid port number. Using default port 8888.", .portFieldSetText "8888"]
      else []) ++ [.newServerSocket], by simp [startServer, hs, h2]⟩

/-- Witness of the amended C6: port 9999 is in use, port 8888 is free; the first call asks
for 9999, the second for 8888. -/
theorem startServer_listen_failure_witness :
    (startServer (fun port => decide (port = 8888)) 9999 MainComponent.initial)
      = (⟨none, none, 9999, false, []⟩,
          [.newServerSocket, .createListener 9999 false,
            .log "Failed to start server on port 9999", .resetServerSocket]) ∧
    (startServer (fun port => decide (port = 8888)) 8888
      (startServer (fun port => decide (port = 8888)) 9999 MainComponent.initial).1).1
      = ⟨some ⟨some 8888⟩, some ⟨true⟩, 8888, true, []⟩ ∧
    (startServer (fun port => decide (port = 8888)) 9999 MainComponent.initial).1.serverRunning
      = false :=
  ⟨by decide, by decide,
    (startServer_listen_failure (fun port => decide (port = 8888)) 9999 MainComponent.initial
      (by decide) (by decide)).2.1⟩

/-- C8, as stated, fails: broadcasting `hi` to the connections 1 and 2, both connected,
the write to connection 1 is made after `clientListLock` was taken and before it is given
back. -/
theorem broadcast_writes_while_guard_held :
    (MainComponent.sendMessage liveClient (fun c => toString c) "hi" runningServer
        ⟨[], [], []⟩).1
      = [.messageFieldClear, .log "Sending to all clients: hi", .lock,
          .client 1 (.isConnected true), .client 1 (.write [104, 105] 2 2),
          .client 2 (.isConnected true), .client 2 (.write [104, 105] 2 2), .unlock] ∧
    WriteWhileGuardHeld (MainComponent.sendMessage liveClient (fun c => toString c) "hi"
        runningServer ⟨[], [], []⟩).1 :=
  ⟨by decide,
    ⟨[.messageFieldClear, .log "Sending to all clients: hi"], [.client 1 (.isConnected true)],
      [.client 2 (.isConnected true), .client 2 (.write [104, 105] 2 2), .unlock],
      .client 1 (.write [104, 105] 2 2), by decide, by decide, by decide⟩⟩

/-- C8, amended: for every registry content and every non-empty message, the broadcast
takes `clientListLock` once, before the first connection is addressed, and gives it back
once, after the last; every socket write of the broadcast is made in between, with the
guard held. -/
theorem broadcast_writes_under_guard {W : Type} (client : ClientId → ConnEnv W)
    (description : ClientId → String) (message : String) (s : MainComponent) (w : W)
    (hm : message.isEmpty = false) :
    (∃ body, (MainComponent.sendMessage client description message s w).1
        = .messageFieldClear :: .log ("Sending to all clients: " ++ message) :: .lock ::
            (body ++ [.unlock]) ∧
      ∀ a ∈ body, a ≠ OwnerAction.lock ∧ a ≠ OwnerAction.unlock) ∧
    (∀ pre a post, (MainComponent.sendMessage client description message s w).1
        = pre ++ a :: post → a.isClientWrite = true →
      OwnerAction.lock ∈ pre ∧ OwnerAction.unlock ∉ pre ∧ OwnerAction.unlock ∈ post) := by
  have hbody := sendToClients_calls client description message s.clientConnections w
  have htr : (MainComponent.sendMessage client description message s w).1
      = .messageFieldClear :: .log ("Sending to all clients: " ++ message) :: .lock ::
          ((sendToClients client description message s.clientConnections w).1 ++ [.unlock]) := by
    simp [MainComponent.sendMessage, hm]
  refine ⟨⟨_, htr, hbody⟩, ?_⟩
  intro pre a post hcut ha
  rw [htr] at hcut
  rcases pre with _ | ⟨p1, _ | ⟨p2, _ | ⟨p3, pre⟩⟩⟩
  · simp at hcut; rw [← hcut.1] at ha; cases ha
  · simp at hcut; rw [← hcut.2.1] at ha; cases ha
  · simp at hcut; rw [← hcut.2.2.1] at ha; cases ha
  · simp only [List.cons_append, List.cons.injEq] at hcut
    obtain ⟨rfl, rfl, rfl, hrest⟩ := hcut
    rcases List.append_eq_append_iff.1 hrest with ⟨a', hpre, hlast⟩ | ⟨c', hb, hlast⟩
    · exfalso
      rcases a' with _ | ⟨x, a'⟩
      · simp at hlast; rw [← hlast.1] at ha; cases ha
      · simp at hlast
    · rcases c' with _ | ⟨x, c'⟩
      · simp at hlast; rw [hlast.1] at ha; cases ha
      · simp only [List.cons_append, List.cons.injEq] at hlast
        refine ⟨by simp, ?_, by rw [hlast.2]; simp⟩
        intro hmem
        simp only [List.mem_cons] at hmem
        rcases hmem with hmem | hmem | hmem | hmem
        · cases hmem
        · cases hmem
        · cases hmem
        · exact (hbody .unlock (by rw [hb]; simp [hmem])).2 rfl

/-- Witness of the amended C8: the broadcast of `hi` to the connections 1 and 2. -/
theorem broadcast_writes_under_guard_witness :
    ∃ body, (MainComponent.sendMessage liveClient (fun c => toString c) "hi" runningServer
        ⟨[], [], []⟩).1
        = .messageFieldClear :: .log ("Sending to all clients: " ++ "hi") :: .lock ::
            (body ++ [.unlock]) ∧
      ∀ a ∈ body, a ≠ OwnerAction.lock ∧ a ≠ OwnerAction.unlock :=
  (broadcast_writes_under_guard liveClient (fun c => toString c) "hi" runningServer
    ⟨[], [], []⟩ (by decide)).1

end TCPDebug
